import Mathlib

/-!
Verification development for the PowerTrade bidding-visualization data core
(`src/data-handler.js`, `src/chart.js`).

The JavaScript code is shallowly embedded: JS numbers are modelled as rationals
plus the non-finite values (`JNum`), JS values as the inductive `JSVal`, dates
as calendar triples (`CalDate`; for date-only ISO strings the JS `Date` time
value order coincides with lexicographic year/month/day order, which is what
`CalDate.key` encodes).  Built-in functions (`parseFloat`, `Date` parsing) are
modelled executably on the value shapes the program actually feeds them; the
scope of each such model is stated at its definition.
-/

namespace PT

/-- Equality of `Except` values is decidable when it is on both sides. -/
instance {ε α : Type} [DecidableEq ε] [DecidableEq α] : DecidableEq (Except ε α) :=
  fun a b =>
    match a, b with
    | .error e, .error f =>
      if h : e = f then isTrue (by rw [h])
      else isFalse (fun hc => h (by cases hc; rfl))
    | .error _, .ok _ => isFalse (fun hc => Except.noConfusion hc)
    | .ok _, .error _ => isFalse (fun hc => Except.noConfusion hc)
    | .ok x, .ok y =>
      if h : x = y then isTrue (by rw [h])
      else isFalse (fun hc => h (by cases hc; rfl))

/-- Calendar date (`new Date("YYYY-MM-DD")` result).  For date-only strings the
JS time value is monotone in (year, month, day), so `key` faithfully captures
the order used by every date comparison in the source. -/
structure CalDate where
  y : Nat
  m : Nat
  d : Nat
deriving DecidableEq, Repr

def CalDate.key (dt : CalDate) : Nat := dt.y * 10000 + dt.m * 100 + dt.d

/-- A JS number: finite (a rational), `NaN`, or a signed infinity. -/
inductive JNum where
  | nan
  | inf
  | ninf
  | fin (q : ℚ)
deriving DecidableEq, Repr

def JNum.isFiniteNum : JNum → Bool
  | .fin _ => true
  | _ => false

/-- A JS value, as far as the data module consumes them. -/
inductive JSVal where
  | vNull
  | vBool (b : Bool)
  | vNum (n : JNum)
  | vStr (s : String)
  | vArr (xs : List JSVal)
  | vObj (fields : List (String × JSVal))

/-- JS truthiness (`!v` is `¬ jsTruthy v`). -/
def jsTruthy : JSVal → Bool
  | .vNull => false
  | .vBool b => b
  | .vNum .nan => false
  | .vNum (.fin q) => q ≠ 0
  | .vNum _ => true
  | .vStr s => s ≠ ""
  | .vArr _ => true
  | .vObj _ => true

/-- `typeof v === 'object'` (true for `null`, arrays and plain objects). -/
def typeofIsObject : JSVal → Bool
  | .vNull => true
  | .vArr _ => true
  | .vObj _ => true
  | _ => false

/-- First binding of `field` in an object's field list (JS property lookup;
the source objects never shadow keys). -/
def objLookup (field : String) : List (String × JSVal) → Option JSVal
  | [] => none
  | (k, v) :: rest => if k = field then some v else objLookup field rest

/-- Digits prefix: consumes leading decimal digits, returning their value,
how many there were, and the rest. -/
def takeDigits : List Char → Nat → Nat → Nat × Nat × List Char
  | [], acc, cnt => (acc, cnt, [])
  | c :: cs, acc, cnt =>
    if c.isDigit then takeDigits cs (acc * 10 + (c.toNat - 48)) (cnt + 1)
    else (acc, cnt, c :: cs)

/-- Model of the string grammar accepted by JS `parseFloat`, restricted to
plain decimal numerals `[ws][+|-]digits[.digits]` with longest-prefix
semantics (trailing garbage ignored); exponents and `Infinity` literals are
outside the scope of the inputs this program receives, and an input with no
numeric prefix yields `NaN`. -/
def parseFloatStr (s : String) : JNum :=
  let cs := s.toList.dropWhile (·.isWhitespace)
  let (neg, cs) :=
    match cs with
    | '-' :: rest => (true, rest)
    | '+' :: rest => (false, rest)
    | _ => (false, cs)
  let (ip, icnt, cs) := takeDigits cs 0 0
  let (fp, fcnt, _) :=
    match cs with
    | '.' :: rest => takeDigits rest 0 0
    | _ => (0, 0, cs)
  if icnt = 0 ∧ fcnt = 0 then .nan
  else
    let mag : ℚ := (ip : ℚ) + (fp : ℚ) / ((10 : ℚ) ^ fcnt)
    .fin (if neg then -mag else mag)

/-- JS `parseFloat(value)`: numbers pass through (via their string form),
strings are parsed; `null`, booleans and objects stringify to non-numeric
text and give `NaN` (arrays are not fed to `parseFloat` by this program and
are abstracted to `NaN` as well). -/
def parseFloat : JSVal → JNum
  | .vNum n => n
  | .vStr s => parseFloatStr s
  | _ => .nan

/-- Parse `"YYYY-MM-DD"` as `new Date(string)` does for date-only ISO forms:
four digits, dash, two digits, dash, two digits, with the month in 1..12 and
the day in 1..31 (finer month-length rejection is not exercised by the
program's data and is elided). Anything else is an invalid date. -/
def parseDateString (s : String) : Option CalDate :=
  match s.toList with
  | [y1, y2, y3, y4, '-', m1, m2, '-', d1, d2] =>
    if y1.isDigit ∧ y2.isDigit ∧ y3.isDigit ∧ y4.isDigit ∧
       m1.isDigit ∧ m2.isDigit ∧ d1.isDigit ∧ d2.isDigit then
      let y := ((y1.toNat - 48) * 1000 + (y2.toNat - 48) * 100 +
                (y3.toNat - 48) * 10 + (y4.toNat - 48))
      let m := (m1.toNat - 48) * 10 + (m2.toNat - 48)
      let d := (d1.toNat - 48) * 10 + (d2.toNat - 48)
      if 1 ≤ m ∧ m ≤ 12 ∧ 1 ≤ d ∧ d ≤ 31 then some ⟨y, m, d⟩ else none
    else none
  | _ => none

/-- `new Date(value)`: only strings are parsed here; the program's date fields
are strings (numeric epoch inputs are not exercised and yield invalid). -/
def jsParseDate : JSVal → Option CalDate
  | .vStr s => parseDateString s
  | _ => none

/-- Rejection reasons thrown by `validateRecord`. -/
inductive VErr where
  | invalidRecord
  | missingField (f : String)
  | invalidString (f : String)
  | invalidNumber (f : String)
  | outOfRange (f : String) (v : ℚ)
  | invalidDate (f : String)
  | dateOutOfRange (f : String)
deriving DecidableEq, Repr

/-- A record that passed `validateRecord` (`bid_date` keeps the original
string; `bid_date_parsed` is the parsed date object). -/
structure VRec where
  user_name : String
  power_company : String
  bid_date : String
  bid_date_parsed : CalDate
  bid_price : ℚ
deriving DecidableEq, Repr

/-- JS `String.prototype.trim`: strip leading and trailing whitespace
(modelled on the character list, which keeps it structurally recursive). -/
def jsTrim (s : String) : String :=
  ⟨((s.toList.dropWhile (·.isWhitespace)).reverse.dropWhile
      (·.isWhitespace)).reverse⟩

/-- The `case 'string'` arm of the field loop. -/
def validateStringField (field : String) (fields : List (String × JSVal)) :
    Except VErr String :=
  match objLookup field fields with
  | none => .error (.missingField field)
  | some v =>
    match v with
    | .vStr s =>
      if jsTrim s = "" then .error (.invalidString field) else .ok (jsTrim s)
    | _ => .error (.invalidString field)

/-- The `case 'number'` arm of the field loop (with the bid-price range
check); the literals `0.1` and `2.0` are the rationals `mkRat 1 10` and `2`
(written with `mkRat` so that concrete instances reduce, since `Rat.inv` is
irreducible). -/
def validateNumberField (field : String) (fields : List (String × JSVal)) :
    Except VErr ℚ :=
  match objLookup field fields with
  | none => .error (.missingField field)
  | some v =>
    match parseFloat v with
    | .fin q =>
      if field = "bid_price" ∧ (q < mkRat 1 10 ∨ q > 2) then
        .error (.outOfRange field q)
      else .ok q
    | _ => .error (.invalidNumber field)

/-- The `case 'date'` arm of the field loop: parse, range-check against
`2020-01-01 .. now`, keep the original string plus the parsed date. -/
def validateDateField (field : String) (now : CalDate)
    (fields : List (String × JSVal)) : Except VErr (String × CalDate) :=
  match objLookup field fields with
  | none => .error (.missingField field)
  | some v =>
    match jsParseDate v with
    | none => .error (.invalidDate field)
    | some dt =>
      if dt.key > now.key ∨ dt.key < (CalDate.mk 2020 1 1).key then
        .error (.dateOutOfRange field)
      else
        match v with
        | .vStr s => .ok (s, dt)
        | _ => .error (.invalidDate field)

/-- `DataHandler.validateRecord` (src/data-handler.js:150-208).  The current
time is an explicit parameter.  The `requiredFields` loop is unrolled in its
fixed order `user_name, power_company, bid_date, bid_price`, failing with the
first field's error exactly as the thrown exception does.  An array input is
a non-null object, so it reaches the field loop and fails on the first `in`
check. -/
def validateRecord (now : CalDate) (record : JSVal) : Except VErr VRec :=
  if ¬ jsTruthy record ∨ ¬ typeofIsObject record then .error .invalidRecord
  else
    match record with
    | .vObj fields =>
      match validateStringField "user_name" fields with
      | .error e => .error e
      | .ok un =>
        match validateStringField "power_company" fields with
        | .error e => .error e
        | .ok pc =>
          match validateDateField "bid_date" now fields with
          | .error e => .error e
          | .ok (bd, bdp) =>
            match validateNumberField "bid_price" fields with
            | .error e => .error e
            | .ok bp =>
              .ok { user_name := un, power_company := pc, bid_date := bd,
                    bid_date_parsed := bdp, bid_price := bp }
    | .vArr _ => .error (.missingField "user_name")
    | _ => .error .invalidRecord

/-- Dataset-level failures thrown by `validateDataStructure`. -/
inductive DErr where
  | emptyData
  | malformed
  | dataQuality (bad total : Nat)
  | noValidRecords
deriving DecidableEq, Repr

/-- Shape resolution: a bare array, or an object with an array `data` field. -/
def resolveArray : JSVal → Option (List JSVal)
  | .vArr xs => some xs
  | .vObj fields =>
    match objLookup "data" fields with
    | some (.vArr xs) => some xs
    | _ => none
  | _ => none

/-- `DataHandler.validateDataStructure` (src/data-handler.js:97-142): resolve
the array shape, validate each record collecting failures, apply the 20%
quality gate (`errors/total > 0.2`, the threshold written `mkRat 2 10`), and
guard against zero survivors.  The
console warning is a UI effect with no bearing on the returned value. -/
def validateDataStructure (now : CalDate) (jsonData : JSVal) :
    Except DErr (List VRec) :=
  if ¬ jsTruthy jsonData then .error .emptyData
  else
    match resolveArray jsonData with
    | none => .error .malformed
    | some dataArray =>
      if dataArray.length = 0 then .error .emptyData
      else
        let results := dataArray.map (validateRecord now)
        let validatedData := results.filterMap (fun r => r.toOption)
        let errCount := results.countP (fun r => r.toOption.isNone)
        if 0 < errCount ∧ (errCount : ℚ) / (dataArray.length : ℚ) > mkRat 2 10 then
          .error (.dataQuality errCount dataArray.length)
        else if validatedData.length = 0 then .error .noValidRecords
        else .ok validatedData

/-! ### Processing pipeline

JS arrays are mutable and passed by reference; `Array.prototype.sort` sorts
its receiver in place and returns that same array, while `Array.prototype.map`
allocates a fresh array.  A call is therefore modelled as a `JsCall`: the
value it returns together with the contents of the caller's argument array
after the call — equal to the original list exactly when the callee did not
mutate its argument. -/

structure JsCall (β : Type) (α : Type) where
  ret : β
  argAfter : α
deriving DecidableEq, Repr

/-- The sort key `new Date(x.bid_date)` as used by the comparator
`dateA - dateB`; an unparseable date makes the comparator `NaN`, which the
sort treats as 0 (equal). -/
def dateLt (a b : VRec) : Bool :=
  match jsParseDate (.vStr a.bid_date), jsParseDate (.vStr b.bid_date) with
  | some x, some y => x.key < y.key
  | _, _ => false

/-- Stable insertion placing `x` after every element strictly smaller under
`lt` and before the rest (equal keys keep original order, as ES2019 requires
of `Array.prototype.sort`). -/
def stableInsert (lt : α → α → Bool) (x : α) : List α → List α
  | [] => [x]
  | y :: ys => if lt y x then y :: stableInsert lt x ys else x :: y :: ys

/-- Stable sort realising `Array.prototype.sort` for a consistent comparator. -/
def stableSort (lt : α → α → Bool) : List α → List α
  | [] => []
  | x :: xs => stableInsert lt x (stableSort lt xs)

/-- `DataHandler.sortByDate` (src/data-handler.js:238-244): sorts the caller's
array IN PLACE via `Array.prototype.sort` and returns that same array, so the
argument's contents after the call are the sorted list. -/
def sortByDate (data : List VRec) (ascending : Bool := true) :
    JsCall (List VRec) (List VRec) :=
  let s := stableSort (fun a b => if ascending then dateLt a b else dateLt b a) data
  ⟨s, s⟩

/-- `DataHandler.cleanString`: `str.replace(/\s+/g, ' ').trim()` — collapse
whitespace runs to single spaces and strip the ends; equivalently the
whitespace-separated words joined by single spaces. -/
def cleanString (str : String) : String :=
  String.intercalate " " ((str.split (·.isWhitespace)).filter (· ≠ ""))

/-- `Math.round`: round half toward positive infinity. -/
def jsRound (x : ℚ) : ℤ := ⌊x + 1/2⌋

/-- `DataHandler.roundPrice`: `Math.round(price * 1000) / 1000`. -/
def roundPrice (price : ℚ) : ℚ := (jsRound (price * 1000) : ℚ) / 1000

/-- `DataHandler.cleanData` (src/data-handler.js:251-258): `map` allocates a
new array of new objects; the argument array is left untouched. -/
def cleanData (data : List VRec) : JsCall (List VRec) (List VRec) :=
  ⟨data.map (fun item =>
      { item with
        user_name := cleanString item.user_name,
        power_company := cleanString item.power_company,
        bid_price := roundPrice item.bid_price }),
   data⟩

/-- A processed record: the validated fields plus the derived fields added by
`enrichData`, in object-key insertion order. -/
structure ERec where
  user_name : String
  power_company : String
  bid_date : String
  bid_date_parsed : CalDate
  bid_price : ℚ
  id : Nat
  bid_date_formatted : String
  bid_price_formatted : String
  quarter : String
  month : Nat
  year : Nat
deriving DecidableEq, Repr

/-- Two-digit zero padding used by the `zh-CN` date formatting. -/
def pad2 (n : Nat) : String := if n < 10 then "0" ++ toString n else toString n

/-- `DataHandler.formatDate`: `toLocaleDateString('zh-CN', …)` renders a valid
date as `YYYY/MM/DD`; an unparseable string renders as `Invalid Date`. -/
def formatDate (dateStr : String) : String :=
  match parseDateString dateStr with
  | some dt => toString dt.y ++ "/" ++ pad2 dt.m ++ "/" ++ pad2 dt.d
  | none => "Invalid Date"

/-- `DataHandler.getMonth`: `new Date(dateStr).getMonth() + 1`; the program
only enriches validated (parseable) dates, the unparseable case is abstracted
to 0. -/
def getMonth (dateStr : String) : Nat :=
  ((parseDateString dateStr).map (·.m)).getD 0

/-- `DataHandler.getYear`: `new Date(dateStr).getFullYear()`. -/
def getYear (dateStr : String) : Nat :=
  ((parseDateString dateStr).map (·.y)).getD 0

/-- `DataHandler.getQuarter`: `Q + ceil(month / 3)`; on naturals
`⌈m/3⌉ = (m + 2) / 3`. -/
def getQuarter (dateStr : String) : String :=
  "Q" ++ toString ((getMonth dateStr + 2) / 3)

/-- `Number.prototype.toFixed(3)` on a price: the rounded thousandths rendered
with three decimals (the prices at hand are nonnegative). -/
def toFixed3 (q : ℚ) : String :=
  let n := (jsRound (q * 1000)).toNat
  toString (n / 1000) ++ "." ++
    (let r := n % 1000
     (if r < 10 then "00" else if r < 100 then "0" else "") ++ toString r)

/-- `DataHandler.enrichData` (src/data-handler.js:283-293): `map` with index
allocates a fresh array of enriched objects; the argument is untouched. -/
def enrichData (data : List VRec) : JsCall (List ERec) (List VRec) :=
  ⟨(List.range data.length).zip data |>.map (fun (p : Nat × VRec) =>
      { user_name := p.2.user_name,
        power_company := p.2.power_company,
        bid_date := p.2.bid_date,
        bid_date_parsed := p.2.bid_date_parsed,
        bid_price := p.2.bid_price,
        id := p.1 + 1,
        bid_date_formatted := formatDate p.2.bid_date,
        bid_price_formatted := toFixed3 p.2.bid_price ++ " 元/kWh",
        quarter := getQuarter p.2.bid_date,
        month := getMonth p.2.bid_date,
        year := getYear p.2.bid_date }),
   data⟩

/-- `DataHandler.processData` (src/data-handler.js:215-231): sort, clean,
enrich.  `sortByDate` receives the caller's array itself and sorts it in
place; `cleanData`/`enrichData` then work on fresh copies.  The caller's
array contents after the call are therefore the date-sorted list.  Nothing in
the pipeline throws, so the `catch` wrapper is dead on this path. -/
def processData (data : List VRec) : JsCall (List ERec) (List VRec) :=
  let sorted := sortByDate data true
  let cleaned := cleanData sorted.ret
  let enriched := enrichData cleaned.ret
  ⟨enriched.ret, sorted.argAfter⟩

/-! ### Analytics -/

/-- `DataHandler.calculateMedian` (src/data-handler.js:433-442):
`[...numbers].sort((a,b) => a-b)` sorts a copy ascending; then take the
middle element (odd length) or the mean of the two central ones (even
length).  Out-of-bounds indexing (possible only for the empty list, outside
every caller's use) is modelled by the default 0. -/
def calculateMedian (numbers : List ℚ) : ℚ :=
  let sorted := stableSort (fun a b : ℚ => a < b) numbers
  let middle := sorted.length / 2
  if sorted.length % 2 = 0 then
    ((sorted.getD (middle - 1) 0) + sorted.getD middle 0) / 2
  else sorted.getD middle 0

/-- `Math.min(...xs)` over a nonempty list (head seeds the fold). -/
def listMin : List ℚ → ℚ
  | [] => 0
  | x :: xs => xs.foldl min x

/-- `Math.max(...xs)` over a nonempty list. -/
def listMax : List ℚ → ℚ
  | [] => 0
  | x :: xs => xs.foldl max x

/-- The statistics object built by `getDataStatistics`.  The `dateRange`
entry (JS `Date` arithmetic over the raw strings) is not referenced by any
claim and is omitted. -/
structure DataStats where
  totalRecords : Nat
  priceMin : ℚ
  priceMax : ℚ
  priceAverage : ℚ
  priceMedian : ℚ
  uniqueUsers : Nat
  uniqueCompanies : Nat
deriving DecidableEq, Repr

/-- `DataHandler.getDataStatistics` (src/data-handler.js:402-426) on the
resolved source data: `null` for an empty dataset, otherwise min/max/mean/
median of the prices and distinct user/company counts (`new Set(...).size`).
-/
def getDataStatistics (sourceData : List ERec) : Option DataStats :=
  match sourceData with
  | [] => none
  | _ =>
    let prices := sourceData.map (·.bid_price)
    some
      { totalRecords := sourceData.length,
        priceMin := listMin prices,
        priceMax := listMax prices,
        priceAverage := prices.foldl (· + ·) 0 / (prices.length : ℚ),
        priceMedian := calculateMedian prices,
        uniqueUsers := ((sourceData.map (·.user_name)).dedup).length,
        uniqueCompanies := ((sourceData.map (·.power_company)).dedup).length }

/-- The filter set passed to `filterData`.  A JS caller may omit a field
(`undefined`); `undefined`, `""` and `0` are all falsy, so omitted string
bounds are modelled as `""` and omitted price bounds as `0`. -/
structure Filters where
  startDate : String := ""
  endDate : String := ""
  minPrice : ℚ := 0
  maxPrice : ℚ := 0
  userName : String := ""
  powerCompany : String := ""
deriving DecidableEq, Repr

/-- Whether the first list is a prefix of the second. -/
def listPrefixOf : List Char → List Char → Bool
  | [], _ => true
  | _ :: _, [] => false
  | a :: as, b :: bs => a = b && listPrefixOf as bs

/-- Whether the first list occurs contiguously inside the second. -/
def listInfixOf (needle : List Char) : List Char → Bool
  | [] => listPrefixOf needle []
  | b :: bs => listPrefixOf needle (b :: bs) || listInfixOf needle bs

/-- `a.includes(b)` on strings. -/
def strIncludes (hay needle : String) : Bool :=
  listInfixOf needle.toList hay.toList

/-- `new Date(a) < new Date(b)` for the date-range clauses: false whenever a
side is unparseable (`NaN` comparisons are false in JS). -/
def jsDateStrLt (a b : String) : Bool :=
  match parseDateString a, parseDateString b with
  | some x, some y => x.key < y.key
  | _, _ => false

/-- The predicate body of `filterData`'s `filter` callback
(src/data-handler.js:366-394): each clause is guarded by the truthiness of
its filter value, so a falsy value (`""`/`0`) disables the clause. -/
def filterPred (filters : Filters) (item : ERec) : Bool :=
  if filters.startDate ≠ "" ∧ jsDateStrLt item.bid_date filters.startDate then false
  else if filters.endDate ≠ "" ∧ jsDateStrLt filters.endDate item.bid_date then false
  else if filters.minPrice ≠ 0 ∧ item.bid_price < filters.minPrice then false
  else if filters.maxPrice ≠ 0 ∧ item.bid_price > filters.maxPrice then false
  else if filters.userName ≠ "" ∧ ¬ strIncludes item.user_name filters.userName then false
  else if filters.powerCompany ≠ "" ∧ ¬ strIncludes item.power_company filters.powerCompany then false
  else true

/-- `DataHandler.filterData` (src/data-handler.js:360-395) on the resolved
source data (an empty source short-circuits to `[]`, which coincides with
filtering nothing out of nothing). -/
def filterData (filters : Filters) (sourceData : List ERec) : List ERec :=
  sourceData.filter (filterPred filters)

/-- The trend-line trace built by `calculateLinearTrendLine`: the `x` and `y`
point lists (the styling entries carry no data). -/
structure TrendLine where
  x : List String
  y : List ℚ
deriving DecidableEq, Repr

/-- `PowerTradeChart.calculateLinearTrendLine` (src/chart.js:300-333): least
squares over the 0-based ordinal index as x and `bid_price` as y, emitting
only the `x = 0` and `x = n−1` predictions paired with the first and last
record's date strings.  The `reduce` accumulations are `foldl`s from 0; the
`x*yValues[i]` indexing is the pointwise product of the two equal-length
lists.  Rational division by zero is 0 where JS would give `NaN`/`Infinity`
(reachable only for `n ≤ 1`, where the JS output is degenerate anyway). -/
def calculateLinearTrendLine (data : List VRec) : TrendLine :=
  let n : Nat := data.length
  let xValues : List ℚ := (List.range n).map (fun i : Nat => (i : ℚ))
  let yValues : List ℚ := data.map (·.bid_price)
  let sumX := xValues.foldl (· + ·) 0
  let sumY := yValues.foldl (· + ·) 0
  let sumXY := (xValues.zip yValues).foldl (fun acc p => acc + p.1 * p.2) 0
  let sumXX := xValues.foldl (fun acc x => acc + x * x) 0
  let slope := ((n : ℚ) * sumXY - sumX * sumY) / ((n : ℚ) * sumXX - sumX * sumX)
  let intercept := (sumY - slope * sumX) / (n : ℚ)
  let startY := slope * 0 + intercept
  let endY := slope * ((n : ℚ) - 1) + intercept
  { x := [((data.head?).map (·.bid_date)).getD "",
          ((data.getLast?).map (·.bid_date)).getD ""],
    y := [startY, endY] }

/-- JS division of the loop index by `dataLength - 1` in
`generateTimeBasedColors`: `0 / 0` is `NaN`, `i / 0` for `i > 0` is
`Infinity`, otherwise a finite rational. -/
def jsDivNat (i m : Nat) : JNum :=
  if m = 0 then (if i = 0 then .nan else .inf) else .fin ((i : ℚ) / (m : ℚ))

/-- `PowerTradeChart.generateTimeBasedColors` (src/chart.js:282-293): a color
ordinal `i / (dataLength − 1)` per position, with no special case for a
single-element dataset (where the loop body computes `0 / 0`). -/
def generateTimeBasedColors (sortedData : List ERec) : List JNum :=
  (List.range sortedData.length).map (fun i => jsDivNat i (sortedData.length - 1))

/-! ### Export -/

/-- `Array.prototype.join(sep)`. -/
def jsJoin (sep : String) : List String → String
  | [] => ""
  | [x] => x
  | x :: y :: ys => x ++ sep ++ jsJoin sep (y :: ys)

/-- A processed-record property value as `convertToCSV` sees it. -/
inductive CellVal where
  | s (v : String)
  | num (q : ℚ)
  | nat (n : Nat)
  | date (d : CalDate)
deriving DecidableEq, Repr

/-- `Object.keys(data[0])` for a processed record: key insertion order is the
validation order, then the fields spread-added by `cleanData` (in place) and
appended by `enrichData`. -/
def erecHeaders : List String :=
  ["user_name", "power_company", "bid_date", "bid_date_parsed", "bid_price",
   "id", "bid_date_formatted", "bid_price_formatted", "quarter", "month", "year"]

/-- `row[header]` on a processed record. -/
def erecGet (row : ERec) : String → CellVal
  | "user_name" => .s row.user_name
  | "power_company" => .s row.power_company
  | "bid_date" => .s row.bid_date
  | "bid_date_parsed" => .date row.bid_date_parsed
  | "bid_price" => .num row.bid_price
  | "id" => .nat row.id
  | "bid_date_formatted" => .s row.bid_date_formatted
  | "bid_price_formatted" => .s row.bid_price_formatted
  | "quarter" => .s row.quarter
  | "month" => .nat row.month
  | "year" => .nat row.year
  | _ => .s ""

/-- One CSV cell: a string containing a comma is wrapped in double quotes
(embedded quotes are NOT escaped — known limitation), other values are
rendered by string conversion.  The exact digit rendering of JS number and
`Date` stringification is abstracted by `toString` of the model values; no
claim depends on it. -/
def csvCell : CellVal → String
  | .s v => if strIncludes v "," then "\"" ++ v ++ "\"" else v
  | .num q => toString q
  | .nat n => toString n
  | .date d => toString d.y ++ "-" ++ pad2 d.m ++ "-" ++ pad2 d.d

/-- `DataHandler.convertToCSV` (src/data-handler.js:516-533): header row from
the first record's keys, then one comma-joined row per record, joined by
newlines.  An empty list yields `""` (the guard at the top of the function).
-/
def convertToCSV (data : List ERec) : String :=
  match data with
  | [] => ""
  | _ =>
    let csvHeaders := jsJoin "," erecHeaders
    let csvRows := data.map (fun row =>
      jsJoin "," (erecHeaders.map (fun h => csvCell (erecGet row h))))
    jsJoin "\n" (csvHeaders :: csvRows)

/-- `JSON.stringify(sourceData, null, 2)`: a pretty-printed array
serialization.  The model renders every field of every record between the
array brackets; indentation and JS-exact number formatting are abstracted (no
claim depends on them). -/
def jsonStringifyERecs (data : List ERec) : String :=
  "[\n" ++
    jsJoin ",\n" (data.map (fun r =>
      "  \x7b" ++
        jsJoin ", " (erecHeaders.map (fun h =>
          "\"" ++ h ++ "\": " ++ csvCell (erecGet r h))) ++
      "\x7d")) ++
  "\n]"

/-- JS `String.prototype.toLowerCase`, modelled characterwise on the list
(structurally recursive, unlike `String.toLower`). -/
def jsToLower (s : String) : String :=
  ⟨s.toList.map Char.toLower⟩

/-- Failures thrown by `exportData`. -/
inductive ExpErr where
  | noData
  | unsupportedFormat (fmt : String)
deriving DecidableEq, Repr

/-- `DataHandler.exportData` (src/data-handler.js:493-509) on the resolved
source data (`data || this.processedData`, where a `null` resolution is
`none`): the no-data guard runs before the `switch` on the lower-cased
format. -/
def exportData (format : String) (sourceData : Option (List ERec)) :
    Except ExpErr String :=
  match sourceData with
  | none => .error .noData
  | some data =>
    if data.length = 0 then .error .noData
    else
      match jsToLower format with
      | "json" => .ok (jsonStringifyERecs data)
      | "csv" => .ok (convertToCSV data)
      | _ => .error (.unsupportedFormat format)

/-! ### Cache/load orchestrator -/

/-- The orchestrator state read and written by `loadData`: the in-flight flag
and the URL-keyed cache of processed datasets (`this.rawData`/
`this.processedData` mirrors and the UI events are not observed by any
claim). -/
structure LoadState where
  isLoading : Bool
  cache : List (String × List ERec)
deriving DecidableEq, Repr

/-- `Map.prototype.get`. -/
def cacheGet (url : String) : List (String × List ERec) → Option (List ERec)
  | [] => none
  | (k, v) :: rest => if k = url then some v else cacheGet url rest

/-- `Map.prototype.set`: overwrite an existing key, else append. -/
def cacheSet (url : String) (v : List ERec) :
    List (String × List ERec) → List (String × List ERec)
  | [] => [(url, v)]
  | (k, w) :: rest =>
    if k = url then (k, v) :: rest else (k, w) :: cacheSet url v rest

/-- Failures surfaced by `loadData`. -/
inductive LoadErr where
  | concurrentLoad
  | httpError (status : Nat)
  | dataErr (e : DErr)
deriving DecidableEq, Repr

/-- `DataHandler.loadData` (src/data-handler.js:33-90) as a step function over
the orchestrator state.  The one suspension point (`await fetch`) is
parametrised by its outcome `fetched` (a non-ok status or a decoded JSON
body), and the current time by `now`.  Control flow transcribed: cache check
first, then the in-flight guard, then fetch → validate → process → cache
store; the `finally` clause clears `isLoading` on EVERY exit path, including
the cache-hit return and the concurrent-load throw. -/
def loadData (s : LoadState) (dataUrl : String) (useCache : Bool)
    (fetched : Except Nat JSVal) (now : CalDate) :
    Except LoadErr (List ERec) × LoadState :=
  if useCache ∧ (cacheGet dataUrl s.cache).isSome then
    (.ok ((cacheGet dataUrl s.cache).getD []), { s with isLoading := false })
  else if s.isLoading then
    (.error .concurrentLoad, { s with isLoading := false })
  else
    match fetched with
    | .error status => (.error (.httpError status), { s with isLoading := false })
    | .ok jsonData =>
      match validateDataStructure now jsonData with
      | .error e => (.error (.dataErr e), { s with isLoading := false })
      | .ok validatedData =>
        let processedData := (processData validatedData).ret
        let cache2 := if useCache then cacheSet dataUrl processedData s.cache
                      else s.cache
        (.ok processedData, { isLoading := false, cache := cache2 })

/-! ### Spec-side definitions

These follow the wording of the specification (for the refinement-style
claims) rather than the source; each is compared with the corresponding
source-derived definition in the theorems below. -/

/-- Spec wording of the ordinary-least-squares slope over the 0-based ordinal
index as x and `bid_price` as y:
`(n·Σxy − Σx·Σy) / (n·Σx² − (Σx)²)`. -/
def slopeSpec (data : List VRec) : ℚ :=
  let n := data.length
  let y : Nat → ℚ := fun i => (data.map (·.bid_price)).getD i 0
  ((n : ℚ) * (∑ i ∈ Finset.range n, (i : ℚ) * y i) -
      (∑ i ∈ Finset.range n, (i : ℚ)) * (∑ i ∈ Finset.range n, y i)) /
    ((n : ℚ) * (∑ i ∈ Finset.range n, (i : ℚ) ^ 2) -
      (∑ i ∈ Finset.range n, (i : ℚ)) ^ 2)

/-- Spec wording of the least-squares intercept: `(Σy − slope·Σx) / n`. -/
def interceptSpec (data : List VRec) : ℚ :=
  let n := data.length
  let y : Nat → ℚ := fun i => (data.map (·.bid_price)).getD i 0
  ((∑ i ∈ Finset.range n, y i) - slopeSpec data * (∑ i ∈ Finset.range n, (i : ℚ))) /
    (n : ℚ)

/-- Spec wording of the median: sort the prices ascending (here with
Mathlib's `insertionSort`), then take the central value (odd count) or the
average of the two central values (even count). -/
def medianSpec (numbers : List ℚ) : ℚ :=
  let s := numbers.insertionSort (· ≤ ·)
  if 2 ∣ numbers.length then
    (s.getD (numbers.length / 2 - 1) 0 + s.getD (numbers.length / 2) 0) / 2
  else s.getD (numbers.length / 2) 0

/-! ### Concrete fixtures used by examples, witnesses and counterexamples -/

/-- A fixed "current time" used by the concrete examples. -/
def now0 : CalDate := ⟨2025, 10, 2⟩

/-- A raw record object with the four required fields. -/
def mkRawRecord (name comp date : String) (price : JSVal) : JSVal :=
  .vObj [("user_name", .vStr name), ("power_company", .vStr comp),
         ("bid_date", .vStr date), ("bid_price", price)]

/-- A raw record that is fully valid except for a parametric bid price. -/
def priceTemplate (q : ℚ) : JSVal :=
  mkRawRecord "张三" "电力公司A" "2024-01-15" (.vNum (.fin q))

/-- What `validateRecord` produces from `priceTemplate q` when the price
passes the range check. -/
def priceTemplateOut (q : ℚ) : VRec :=
  { user_name := "张三", power_company := "电力公司A", bid_date := "2024-01-15",
    bid_date_parsed := ⟨2024, 1, 15⟩, bid_price := q }

/-- A valid raw record (price 0.5, written `mkRat` so that it reduces). -/
def goodRaw : JSVal := priceTemplate (mkRat 1 2)

/-- Ten records of which exactly two are malformed (20%). -/
def ex10with2bad : List JSVal :=
  List.replicate 8 goodRaw ++ List.replicate 2 .vNull

/-- Ten records of which three are malformed (30%). -/
def ex10with3bad : List JSVal :=
  List.replicate 7 goodRaw ++ List.replicate 3 .vNull

/-- A validated record dated early 2024. -/
def vrEarly : VRec :=
  { user_name := "u1", power_company := "c1", bid_date := "2024-01-01",
    bid_date_parsed := ⟨2024, 1, 1⟩, bid_price := 1/2 }

/-- A validated record dated later in 2024. -/
def vrLate : VRec :=
  { user_name := "u2", power_company := "c2", bid_date := "2024-02-02",
    bid_date_parsed := ⟨2024, 2, 2⟩, bid_price := 3/5 }

/-- A processed record, as cached datasets and analytics inputs contain. -/
def erSample : ERec :=
  { user_name := "u1", power_company := "c1", bid_date := "2024-01-01",
    bid_date_parsed := ⟨2024, 1, 1⟩, bid_price := 1/2, id := 1,
    bid_date_formatted := "2024/01/01", bid_price_formatted := "0.500 元/kWh",
    quarter := "Q1", month := 1, year := 2024 }

/-- A second processed record. -/
def erSample2 : ERec :=
  { user_name := "u2", power_company := "c2", bid_date := "2024-02-02",
    bid_date_parsed := ⟨2024, 2, 2⟩, bid_price := 3/5, id := 2,
    bid_date_formatted := "2024/02/02", bid_price_formatted := "0.600 元/kWh",
    quarter := "Q1", month := 2, year := 2024 }

/-- A processed record with price `p` (for the statistics example). -/
def erPrice (p : ℚ) : ERec := { erSample with bid_price := p }

/-- An orchestrator state with a load in flight and one cached dataset. -/
def s0Loading : LoadState := ⟨true, [("./data-sample.json", [erSample])]⟩

/-! ## Theorems -/

/-- C10: a raw element that is `null` or not an object (a string, number or
boolean) fails record validation with the generic invalid-record error before
any per-field check can run, so it never produces a missing-field,
invalid-string, invalid-number, invalid-date or out-of-range error. -/
theorem validateRecord_non_object (now : CalDate) (s : String) (n : JNum) (b : Bool) :
    validateRecord now .vNull = .error .invalidRecord ∧
    validateRecord now (.vStr s) = .error .invalidRecord ∧
    validateRecord now (.vNum n) = .error .invalidRecord ∧
    validateRecord now (.vBool b) = .error .invalidRecord := by
  refine ⟨rfl, ?_, ?_, ?_⟩ <;> simp [validateRecord, typeofIsObject]

/-- C4 counterexample: the pipeline does NOT leave the caller's sequence
unchanged — `processData` hands the caller's array to `Array.prototype.sort`,
which reorders it in place, so after the call the caller's array contents are
the sorted list, not the original. -/
theorem processData_mutates_caller_array :
    (processData [vrLate, vrEarly]).argAfter ≠ [vrLate, vrEarly] := by decide

/-- C4 (amended): `cleanData` and `enrichData` return fresh sequences and
leave their argument untouched, but `sortByDate` sorts the caller's array in
place (returning that same array), so `processData` returns a new enriched
sequence while leaving the caller's sequence reordered into date order. -/
theorem processData_pipeline_aliasing (data : List VRec) :
    (processData data).ret =
      (enrichData (cleanData (stableSort (fun a b => dateLt a b) data)).ret).ret ∧
    (processData data).argAfter = stableSort (fun a b => dateLt a b) data ∧
    (sortByDate data true).ret = (sortByDate data true).argAfter ∧
    (cleanData data).argAfter = data ∧
    (enrichData data).argAfter = data :=
  ⟨rfl, rfl, rfl, rfl, rfl⟩

/-- C8: a filter clause whose value is falsy (`0` price bound, `""` string
bound) is disabled: with both price bounds falsy the predicate ignores the
record's price entirely, and with every filter value falsy `filterData`
returns the dataset unchanged. -/
theorem filterData_falsy_filters :
    (∀ (fs : Filters) (item : ERec) (p p' : ℚ), fs.minPrice = 0 → fs.maxPrice = 0 →
      filterPred fs { item with bid_price := p } =
        filterPred fs { item with bid_price := p' }) ∧
    (∀ (fs : Filters) (data : List ERec),
      fs.startDate = "" → fs.endDate = "" → fs.minPrice = 0 → fs.maxPrice = 0 →
      fs.userName = "" → fs.powerCompany = "" → filterData fs data = data) := by
  constructor
  · intro fs item p p' hmin hmax
    simp [filterPred, hmin, hmax]
  · intro fs data h1 h2 h3 h4 h5 h6
    simp [filterData, filterPred, h1, h2, h3, h4, h5, h6]

/-- A string of positive length is not empty. -/
theorem str_ne_empty_of_length_pos (s : String) (h : 0 < s.length) : s ≠ "" := by
  intro he
  rw [he] at h
  simp at h

/-- The first element bounds the length of a join from below. -/
theorem jsJoin_cons_length (sep x : String) (xs : List String) :
    x.length ≤ (jsJoin sep (x :: xs)).length := by
  cases xs with
  | nil => simp [jsJoin]
  | cons y ys => simp [jsJoin, String.length_append]; omega

/-- The JSON serialization is never the empty string. -/
theorem jsonStringifyERecs_ne_empty (data : List ERec) :
    jsonStringifyERecs data ≠ "" := by
  apply str_ne_empty_of_length_pos
  simp [jsonStringifyERecs, String.length_append]
  left
  left
  decide

/-- The CSV serialization of a nonempty dataset is never the empty string
(its first row is the constant header row). -/
theorem convertToCSV_ne_empty (r : ERec) (rest : List ERec) :
    convertToCSV (r :: rest) ≠ "" := by
  apply str_ne_empty_of_length_pos
  have hh : 0 < (jsJoin "," erecHeaders).length := by decide
  have := jsJoin_cons_length "\n" (jsJoin "," erecHeaders)
    ((r :: rest).map (fun row =>
      jsJoin "," (erecHeaders.map (fun h => csvCell (erecGet row h)))))
  simp only [convertToCSV]
  omega

/-- C9: export fails with the no-data error whenever the resolved dataset is
null or empty, for every format — the emptiness guard runs before the format
dispatch — and a successful export never yields an empty serialization. -/
theorem exportData_empty_before_format :
    (∀ fmt : String, exportData fmt none = .error .noData ∧
      exportData fmt (some []) = .error .noData) ∧
    (∀ (fmt : String) (d : Option (List ERec)) (out : String),
      exportData fmt d = .ok out → out ≠ "") := by
  constructor
  · intro fmt
    exact ⟨rfl, rfl⟩
  · intro fmt d out h
    match d with
    | none => simp [exportData] at h
    | some [] => simp [exportData] at h
    | some (r :: rest) =>
      simp only [exportData, List.length_cons] at h
      rw [if_neg (by omega)] at h
      split at h
      · cases h
        exact jsonStringifyERecs_ne_empty _
      · cases h
        exact convertToCSV_ne_empty _ _
      · cases h

/-- C5 counterexample: a `load()` call made while another load is in flight
does NOT always fail with the concurrent-load error — the cache check runs
before the in-flight guard, so a cache hit returns the cached dataset even
though a load is pending. -/
theorem loadData_cache_hit_bypasses_guard :
    s0Loading.isLoading = true ∧
    (loadData s0Loading "./data-sample.json" true (.ok .vNull) now0).1 =
      .ok [erSample] ∧
    (loadData s0Loading "./data-sample.json" true (.ok .vNull) now0).1 ≠
      .error .concurrentLoad := by
  refine ⟨rfl, rfl, ?_⟩
  decide

/-- C5 (amended): while a load is in flight, every further `load()` call that
does not hit the cache (cache disabled or no entry for the URL) fails with
the concurrent-load error, and the in-flight flag is reset on every exit path
of every call (success or failure). -/
theorem loadData_single_flight (s : LoadState) (url : String) (useCache : Bool)
    (fetched : Except Nat JSVal) (now : CalDate) :
    (s.isLoading = true → (useCache = false ∨ cacheGet url s.cache = none) →
      (loadData s url useCache fetched now).1 = .error .concurrentLoad) ∧
    (loadData s url useCache fetched now).2.isLoading = false := by
  constructor
  · intro hl hmiss
    have hcond : ¬ (useCache = true ∧ (cacheGet url s.cache).isSome = true) := by
      rcases hmiss with h | h <;> simp [h]
    simp [loadData, hcond, hl]
  · simp only [loadData]
    split
    · rfl
    · split
      · rfl
      · split
        · rfl
        · split
          · rfl
          · rfl

/-- C5 witness: concrete instantiation of the amended guard — in-flight state,
empty cache, the second call fails with the concurrent-load error. -/
theorem loadData_single_flight_witness :
    (loadData ⟨true, []⟩ "u" true (.ok .vNull) now0).1 = .error .concurrentLoad :=
  (loadData_single_flight ⟨true, []⟩ "u" true (.ok .vNull) now0).1 rfl (.inr rfl)

/-- The JS stable insertion coincides with Mathlib's ordered insertion under
the corresponding non-strict order. -/
theorem stableInsert_eq_orderedInsert (x : ℚ) (l : List ℚ) :
    stableInsert (fun a b : ℚ => a < b) x l = l.orderedInsert (· ≤ ·) x := by
  induction l with
  | nil => rfl
  | cons y ys ih =>
    simp only [stableInsert, List.orderedInsert, decide_eq_true_eq]
    by_cases h : y < x
    · rw [if_pos h, if_neg (not_le.mpr h), ih]
    · rw [if_neg h, if_pos (not_lt.mp h)]

/-- The JS numeric-comparator sort coincides with Mathlib's insertion sort. -/
theorem stableSort_eq_insertionSort (l : List ℚ) :
    stableSort (fun a b : ℚ => a < b) l = l.insertionSort (· ≤ ·) := by
  induction l with
  | nil => rfl
  | cons x xs ih =>
    simp only [stableSort, List.insertionSort, ih, stableInsert_eq_orderedInsert]

/-- C6: the median is computed by sorting the prices ascending and taking the
central value (odd count) or the mean of the two central values (even count);
on the prices `[0.40, 0.50, 0.45, 0.60]` the summary statistics report median
`0.475` and mean `0.4875`. -/
theorem calculateMedian_sorted_central :
    (∀ numbers : List ℚ, calculateMedian numbers = medianSpec numbers) ∧
    ((getDataStatistics
        [erPrice (2/5), erPrice (1/2), erPrice (9/20), erPrice (3/5)]).map
      (·.priceMedian) = some (19/40)) ∧
    ((getDataStatistics
        [erPrice (2/5), erPrice (1/2), erPrice (9/20), erPrice (3/5)]).map
      (·.priceAverage) = some (39/80)) := by
  refine ⟨?_, ?_, ?_⟩
  · intro numbers
    simp only [calculateMedian, medianSpec]
    rw [stableSort_eq_insertionSort,
      (List.perm_insertionSort (· ≤ ·) numbers).length_eq]
    by_cases h : numbers.length % 2 = 0
    · rw [if_pos h, if_pos (Nat.dvd_iff_mod_eq_zero.mpr h)]
    · rw [if_neg h, if_neg (fun hd => h (Nat.dvd_iff_mod_eq_zero.mp hd))]
  · norm_num [getDataStatistics, erPrice, erSample, calculateMedian,
      stableSort, stableInsert, listMin, listMax]
  · norm_num [getDataStatistics, erPrice, erSample, listMin, listMax]

/-- C7 counterexample: on a single-record dataset the color mapping performs
the division `0 / 0`, yielding `NaN` — not a fixed finite ordinal. -/
theorem generateTimeBasedColors_single_nan :
    generateTimeBasedColors [erSample] = [JNum.nan] ∧
    JNum.isFiniteNum JNum.nan = false :=
  ⟨rfl, rfl⟩

/-- C7 (amended): for a dataset of length `L ≥ 2` the color mapping assigns
position `i` the finite value `i / (L − 1)`, spanning 0..1 inclusive; for
`L = 1` it performs the division by zero and maps the single point to `NaN`
rather than a fixed finite ordinal. -/
theorem generateTimeBasedColors_ordinals (data : List ERec) :
    (2 ≤ data.length →
      generateTimeBasedColors data =
        (List.range data.length).map
          (fun i : Nat => JNum.fin ((i : ℚ) / ((data.length : ℚ) - 1))) ∧
      (generateTimeBasedColors data).head? = some (.fin 0) ∧
      (generateTimeBasedColors data).getLast? = some (.fin 1) ∧
      ∀ c ∈ generateTimeBasedColors data,
        ∃ q : ℚ, c = .fin q ∧ 0 ≤ q ∧ q ≤ 1) ∧
    (data.length = 1 → generateTimeBasedColors data = [JNum.nan]) := by
  constructor
  · intro h2
    have hm : data.length - 1 ≠ 0 := by omega
    have hcast : ((data.length - 1 : Nat) : ℚ) = (data.length : ℚ) - 1 := by
      have : 1 ≤ data.length := by omega
      push_cast [this]
      ring
    have hpos : (0 : ℚ) < ((data.length - 1 : Nat) : ℚ) := by
      exact_mod_cast Nat.pos_of_ne_zero hm
    have hmap : generateTimeBasedColors data =
        (List.range data.length).map
          (fun i : Nat => JNum.fin ((i : ℚ) / ((data.length : ℚ) - 1))) := by
      unfold generateTimeBasedColors
      refine List.map_congr_left (fun i _ => ?_)
      rw [jsDivNat, if_neg hm, hcast]
    refine ⟨hmap, ?_, ?_, ?_⟩
    · obtain ⟨k, hk⟩ : ∃ k, data.length = k + 1 := ⟨data.length - 1, by omega⟩
      rw [hmap, List.head?_map, hk, List.range_succ_eq_map]
      simp
    · obtain ⟨k, hk⟩ : ∃ k, data.length = k + 1 := ⟨data.length - 1, by omega⟩
      rw [hmap, List.getLast?_map, hk, List.range_succ, List.getLast?_concat]
      have hk1 : (k : ℚ) ≠ 0 := Nat.cast_ne_zero.mpr (by omega)
      simp [div_self hk1]
    · intro c hc
      rw [hmap] at hc
      obtain ⟨i, hi, rfl⟩ := List.mem_map.mp hc
      have hin : i < data.length := List.mem_range.mp hi
      refine ⟨(i : ℚ) / ((data.length : ℚ) - 1), rfl, ?_, ?_⟩
      · apply div_nonneg (by positivity)
        rw [← hcast]
        exact le_of_lt hpos
      · rw [← hcast]
        rw [div_le_one hpos]
        exact Nat.cast_le.mpr (by omega)
  · intro h1
    unfold generateTimeBasedColors
    rw [h1]
    rfl

/-- C7 witness: concrete instantiation of the amended mapping on a
two-record dataset. -/
theorem generateTimeBasedColors_ordinals_witness :
    generateTimeBasedColors [erSample, erSample2] =
      (List.range [erSample, erSample2].length).map
        (fun i : Nat =>
          JNum.fin ((i : ℚ) / (([erSample, erSample2].length : ℚ) - 1))) :=
  ((generateTimeBasedColors_ordinals [erSample, erSample2]).1 (by decide)).1

/-- A price accepted by the numeric field check lies in `[0.1, 2]`. -/
theorem validateNumberField_ok_range (fields : List (String × JSVal)) (q : ℚ)
    (h : validateNumberField "bid_price" fields = .ok q) :
    1/10 ≤ q ∧ q ≤ 2 := by
  unfold validateNumberField at h
  split at h
  · exact Except.noConfusion h
  · split at h
    · split at h
      · exact Except.noConfusion h
      · rename_i hniff
        cases h
        have hr : ¬ (q < mkRat 1 10 ∨ 2 < q) := fun hc => hniff ⟨rfl, hc⟩
        push_neg at hr
        have h10 : (mkRat 1 10 : ℚ) = 1/10 := by norm_num [Rat.mkRat_eq_div]
        exact ⟨h10 ▸ hr.1, hr.2⟩
    · exact Except.noConfusion h

/-- C1: every record that passes validation has `bid_price ∈ [0.1, 2.0]`, and
on an otherwise-valid record the price is accepted exactly when it lies in
that closed interval — otherwise validation fails with the out-of-range error
for `bid_price` carrying the offending value. -/
theorem validateRecord_price_range :
    (∀ (now : CalDate) (record : JSVal) (out : VRec),
      validateRecord now record = .ok out →
      1/10 ≤ out.bid_price ∧ out.bid_price ≤ 2) ∧
    (∀ (q : ℚ) (now : CalDate), (CalDate.mk 2024 1 15).key ≤ now.key →
      validateRecord now (priceTemplate q) =
        if 1/10 ≤ q ∧ q ≤ 2 then .ok (priceTemplateOut q)
        else .error (.outOfRange "bid_price" q)) := by
  constructor
  · intro now record out h
    unfold validateRecord at h
    split at h
    · exact Except.noConfusion h
    · split at h
      · split at h
        · exact Except.noConfusion h
        · split at h
          · exact Except.noConfusion h
          · split at h
            · exact Except.noConfusion h
            · split at h
              · exact Except.noConfusion h
              · rename_i bp heq
                cases h
                exact validateNumberField_ok_range _ _ heq
      · exact Except.noConfusion h
      · exact Except.noConfusion h
  · intro q now hnow
    have ht1 : jsTrim "张三" = "张三" := by decide
    have ht2 : jsTrim "电力公司A" = "电力公司A" := by decide
    have hd : parseDateString "2024-01-15" = some ⟨2024, 1, 15⟩ := by decide
    have h10 : (mkRat 1 10 : ℚ) = 1/10 := by norm_num [Rat.mkRat_eq_div]
    have hkey : ¬ ((CalDate.mk 2024 1 15).key > now.key ∨
        (CalDate.mk 2024 1 15).key < (CalDate.mk 2020 1 1).key) := by
      simp only [CalDate.key] at hnow ⊢
      omega
    simp [priceTemplate, mkRawRecord, validateRecord, jsTruthy, typeofIsObject,
      validateStringField, validateDateField, validateNumberField, objLookup,
      jsParseDate, parseFloat, hd, ht1, ht2, h10, priceTemplateOut,
      if_neg hkey]
    by_cases hq : (10:ℚ)⁻¹ ≤ q ∧ q ≤ 2
    · have hno : ¬ (q < (10:ℚ)⁻¹ ∨ 2 < q) := by push_neg; exact hq
      rw [if_pos hq, if_neg hno]
    · have hyes : q < (10:ℚ)⁻¹ ∨ 2 < q := by
        rcases not_and_or.mp hq with h | h
        · exact Or.inl (not_le.mp h)
        · exact Or.inr (not_le.mp h)
      rw [if_neg hq, if_pos hyes]

/-- C1 witness: the boundary price `0.1` is accepted on the concrete
template record. -/
theorem validateRecord_price_range_witness :
    validateRecord now0 (priceTemplate (1/10)) = .ok (priceTemplateOut (1/10)) := by
  have h := validateRecord_price_range.2 (1/10) now0 (by decide)
  rw [if_pos (by norm_num)] at h
  exact h

/-- `Except.toOption` on a success. -/
theorem exceptToOption_ok (v : VRec) :
    (Except.ok v : Except VErr VRec).toOption = some v := rfl

/-- `Except.toOption` on a failure. -/
theorem exceptToOption_error (e : VErr) :
    (Except.error e : Except VErr VRec).toOption = none := rfl

/-- Surviving records and rejections partition the validated batch. -/
theorem filterMap_toOption_add_countP (l : List (Except VErr VRec)) :
    (l.filterMap (fun r => r.toOption)).length +
      l.countP (fun r => r.toOption.isNone) = l.length := by
  induction l with
  | nil => rfl
  | cons a l ih =>
    cases a with
    | ok v =>
      rw [List.filterMap_cons, List.countP_cons]
      simp only [exceptToOption_ok, Option.isNone_some, List.length_cons,
        Bool.false_eq_true, if_false]
      omega
    | error e =>
      rw [List.filterMap_cons, List.countP_cons]
      simp only [exceptToOption_error, Option.isNone_none, List.length_cons,
        if_true]
      omega

/-- C2: on a resolved nonempty input sequence, dataset validation fails with
the data-quality error exactly when the fraction of rejected records strictly
exceeds 1/5; at or below that threshold the rejected records are dropped and
the accepted ones returned.  Concretely, 10 records with 3 malformed fail
with `DataQualityError(3, 10)`, and with exactly 2 malformed succeed with the
8 valid records. -/
theorem validateDataStructure_quality_gate :
    (∀ (now : CalDate) (xs : List JSVal), xs ≠ [] →
      ((∃ bad total, validateDataStructure now (.vArr xs) =
          .error (.dataQuality bad total)) ↔
        (((xs.map (validateRecord now)).countP (fun r => r.toOption.isNone) : ℚ) /
            (xs.length : ℚ) > 1/5)) ∧
      ((((xs.map (validateRecord now)).countP (fun r => r.toOption.isNone) : ℚ) /
            (xs.length : ℚ) ≤ 1/5) →
        validateDataStructure now (.vArr xs) =
          .ok ((xs.map (validateRecord now)).filterMap (fun r => r.toOption)))) ∧
    validateDataStructure now0 (.vArr ex10with3bad) = .error (.dataQuality 3 10) ∧
    validateDataStructure now0 (.vArr ex10with2bad) =
      .ok (List.replicate 8 (priceTemplateOut (mkRat 1 2))) := by
  refine ⟨?_, ?_, ?_⟩
  · intro now xs hne
    have hlen : 0 < xs.length := List.length_pos.mpr hne
    have hlq : (0:ℚ) < (xs.length : ℚ) := by exact_mod_cast hlen
    have hEV := filterMap_toOption_add_countP (xs.map (validateRecord now))
    rw [List.length_map] at hEV
    have hmk : (mkRat 2 10 : ℚ) = 1/5 := by norm_num [Rat.mkRat_eq_div]
    have key : validateDataStructure now (.vArr xs) =
        if 0 < (xs.map (validateRecord now)).countP (fun r => r.toOption.isNone) ∧
            ((xs.map (validateRecord now)).countP (fun r => r.toOption.isNone) : ℚ) /
              (xs.length : ℚ) > mkRat 2 10 then
          .error (.dataQuality
            ((xs.map (validateRecord now)).countP (fun r => r.toOption.isNone))
            xs.length)
        else if ((xs.map (validateRecord now)).filterMap
            (fun r => r.toOption)).length = 0 then
          .error .noValidRecords
        else .ok ((xs.map (validateRecord now)).filterMap (fun r => r.toOption)) := by
      simp only [validateDataStructure, jsTruthy, resolveArray]
      rw [if_neg (by simp), if_neg (by omega)]
    set E := (xs.map (validateRecord now)).countP (fun r => r.toOption.isNone) with hE
    set V := (xs.map (validateRecord now)).filterMap (fun r => r.toOption) with hV
    constructor
    · constructor
      · rintro ⟨b, t, hbt⟩
        rw [key] at hbt
        by_cases hc : 0 < E ∧ (E : ℚ) / (xs.length : ℚ) > mkRat 2 10
        · rw [hmk] at hc
          exact hc.2
        · rw [if_neg hc] at hbt
          by_cases hv : V.length = 0
          · rw [if_pos hv] at hbt
            injection hbt with h
            exact DErr.noConfusion h
          · rw [if_neg hv] at hbt
            exact Except.noConfusion hbt
      · intro hgt
        have hEpos : 0 < E := by
          by_contra h0
          push_neg at h0
          have hE0 : E = 0 := by omega
          rw [hE0] at hgt
          norm_num at hgt
        exact ⟨E, xs.length, by rw [key, if_pos ⟨hEpos, by rw [hmk]; exact hgt⟩]⟩
    · intro hle
      rw [key]
      have hnc : ¬ (0 < E ∧ (E : ℚ) / (xs.length : ℚ) > mkRat 2 10) := by
        rintro ⟨-, hgtc⟩
        rw [hmk] at hgtc
        exact absurd hle (not_le.mpr hgtc)
      rw [if_neg hnc]
      have hvne : ¬ (V.length = 0) := by
        intro hv0
        have hEfull : E = xs.length := by omega
        rw [hEfull, div_self (ne_of_gt hlq)] at hle
        norm_num at hle
      rw [if_neg hvne]
  · have hcnt : (ex10with3bad.map (validateRecord now0)).countP
        (fun r => r.toOption.isNone) = 3 := by decide
    have hlen10 : ex10with3bad.length = 10 := by decide
    simp only [validateDataStructure, jsTruthy, resolveArray]
    rw [if_neg (by simp), if_neg (by decide), hcnt, hlen10,
      if_pos ⟨by norm_num, by norm_num [Rat.mkRat_eq_div]⟩]
  · have hcnt : (ex10with2bad.map (validateRecord now0)).countP
        (fun r => r.toOption.isNone) = 2 := by decide
    have hlen10 : ex10with2bad.length = 10 := by decide
    have hval : (ex10with2bad.map (validateRecord now0)).filterMap
        (fun r => r.toOption) = List.replicate 8 (priceTemplateOut (mkRat 1 2)) := by
      decide
    simp only [validateDataStructure, jsTruthy, resolveArray]
    rw [if_neg (by simp), if_neg (by decide), hcnt, hlen10, hval,
      if_neg (by norm_num [Rat.mkRat_eq_div]), if_neg (by decide)]

/-- C2 witness: a singleton batch with no rejections is below the threshold
and validates to its accepted records. -/
theorem validateDataStructure_quality_gate_witness :
    validateDataStructure now0 (.vArr [goodRaw]) =
      .ok (([goodRaw].map (validateRecord now0)).filterMap (fun r => r.toOption)) := by
  apply (validateDataStructure_quality_gate.1 now0 [goodRaw] (List.cons_ne_nil _ _)).2
  have hcnt : ([goodRaw].map (validateRecord now0)).countP
      (fun r => r.toOption.isNone) = 0 := by decide
  rw [hcnt]
  norm_num

/-- A `reduce((a,b) => a+b, 0)` accumulation is the list sum. -/
theorem foldl_add_sum (l : List ℚ) (a : ℚ) : l.foldl (· + ·) a = a + l.sum := by
  induction l generalizing a with
  | nil => simp
  | cons x xs ih => simp [List.foldl_cons, ih, add_assoc]

/-- The `Σxy` accumulation is the sum of pointwise products. -/
theorem foldl_add_mul_sum (l : List (ℚ × ℚ)) (a : ℚ) :
    l.foldl (fun acc p => acc + p.1 * p.2) a = a + (l.map (fun p => p.1 * p.2)).sum := by
  induction l generalizing a with
  | nil => simp
  | cons x xs ih => simp [List.foldl_cons, ih, add_assoc]

/-- The `Σx²` accumulation is the sum of squares. -/
theorem foldl_add_sq_sum (l : List ℚ) (a : ℚ) :
    l.foldl (fun acc x => acc + x * x) a = a + (l.map (fun x => x * x)).sum := by
  induction l generalizing a with
  | nil => simp
  | cons x xs ih => simp [List.foldl_cons, ih, add_assoc]

/-- A sum over `List.range` is the corresponding `Finset.range` sum. -/
theorem range_map_sum (g : Nat → ℚ) (n : Nat) :
    ((List.range n).map g).sum = ∑ i ∈ Finset.range n, g i := by
  induction n with
  | zero => simp
  | succ k ih =>
    rw [List.range_succ, List.map_append, List.sum_append, Finset.sum_range_succ, ih]
    simp

/-- Every list is the table of its positional lookups. -/
theorem list_eq_range_map_getD (l : List ℚ) :
    l = (List.range l.length).map (fun i : Nat => l.getD i 0) := by
  apply List.ext_getElem
  · simp
  · intro i h1 h2
    simp [List.getD, List.getElem?_eq_getElem h1]

/-- Zipping the index list with a list tabulates indexed pairs. -/
theorem zip_range_map (l : List ℚ) :
    (((List.range l.length).map (fun i : Nat => (i : ℚ))).zip l) =
      (List.range l.length).map (fun i : Nat => ((i : ℚ), l.getD i 0)) := by
  apply List.ext_getElem
  · simp
  · intro i h1 h2
    have hi : i < l.length := by
      simp at h1
      omega
    simp [List.getElem_zip, List.getD, List.getElem?_eq_getElem hi]

/-- `zip_range_map`, stated for an arbitrary length argument. -/
theorem zip_range_map_of_length (n : Nat) (l : List ℚ) (h : l.length = n) :
    (((List.range n).map (fun i : Nat => (i : ℚ))).zip l) =
      (List.range n).map (fun i : Nat => ((i : ℚ), l.getD i 0)) := by
  subst h
  exact zip_range_map l

/-- A list sum as a `Finset.range` sum of positional lookups. -/
theorem list_sum_eq_sum_getD (l : List ℚ) :
    l.sum = ∑ i ∈ Finset.range l.length, l.getD i 0 := by
  conv_lhs => rw [list_eq_range_map_getD l]
  rw [range_map_sum]

/-- C3: on a date-sorted dataset of `n ≥ 2` records the trend line uses the
ordinary-least-squares slope `(n·Σxy − Σx·Σy) / (n·Σx² − (Σx)²)` and
intercept `(Σy − slope·Σx) / n` over the 0-based ordinal index as x and
`bid_price` as y, and emits exactly the two endpoint predictions at `x = 0`
and `x = n − 1`, paired with the first and last record's `bid_date`. -/
theorem calculateLinearTrendLine_ols (data : List VRec) (first last : VRec)
    (hh : data.head? = some first) (hl : data.getLast? = some last)
    (h2 : 2 ≤ data.length) :
    calculateLinearTrendLine data =
      { x := [first.bid_date, last.bid_date],
        y := [interceptSpec data,
              slopeSpec data * ((data.length : ℚ) - 1) + interceptSpec data] } := by
  simp only [calculateLinearTrendLine, TrendLine.mk.injEq]
  refine ⟨by simp [hh, hl], ?_⟩
  rw [foldl_add_sum, foldl_add_sum, foldl_add_mul_sum, foldl_add_sq_sum,
    zip_range_map_of_length data.length (data.map (fun x => x.bid_price))
      (List.length_map _ _),
    List.map_map, List.map_map]
  simp only [Function.comp, zero_add, List.length_map]
  rw [range_map_sum, range_map_sum, range_map_sum,
    list_sum_eq_sum_getD (data.map (fun x => x.bid_price)), List.length_map]
  simp only [Function.comp_apply, zero_add]
  simp only [slopeSpec, interceptSpec]
  have hsq : (∑ i ∈ Finset.range data.length, ((i:ℚ))^2) =
      ∑ i ∈ Finset.range data.length, (i:ℚ)*(i:ℚ) :=
    Finset.sum_congr rfl (fun i _ => pow_two _)
  rw [hsq, pow_two]
  simp only [List.cons.injEq, and_true]
  ring

/-- C3 witness: the trend line of a concrete two-record dataset. -/
theorem calculateLinearTrendLine_ols_witness :
    calculateLinearTrendLine [vrEarly, vrLate] =
      { x := [vrEarly.bid_date, vrLate.bid_date],
        y := [interceptSpec [vrEarly, vrLate],
              slopeSpec [vrEarly, vrLate] * (([vrEarly, vrLate].length : ℚ) - 1) +
                interceptSpec [vrEarly, vrLate]] } :=
  calculateLinearTrendLine_ols [vrEarly, vrLate] vrEarly vrLate rfl rfl (by decide)

/-- C8 witness: the all-falsy filter set leaves a concrete dataset unchanged. -/
theorem filterData_falsy_filters_witness :
    filterData
      { startDate := "", endDate := "", minPrice := 0, maxPrice := 0,
        userName := "", powerCompany := "" } [erSample] = [erSample] :=
  filterData_falsy_filters.2 _ [erSample] rfl rfl rfl rfl rfl rfl

/-- C9 witness: a successful concrete export is a nonempty string. -/
theorem exportData_empty_before_format_witness :
    jsonStringifyERecs [erSample] ≠ "" :=
  exportData_empty_before_format.2 "json" (some [erSample])
    (jsonStringifyERecs [erSample]) rfl

end PT
